import Mathlib

/-!
Shallow embedding of the WebRTC signaling server core
(src/unnamed/part_000, "Improved WebRTC Signaling Server", with the
basic variant src/index.js embedded where a claim cites it).

The two module-level JS `Map`s (`rooms`, `userSockets`) are modelled as
association lists with JS `Map` semantics (`set` replaces in place or
appends, `delete` removes the key, iteration in insertion order).
JS truthiness of the dynamically typed event fields is modelled by
`truthy : Option String → Bool` (absent and the empty string are falsy).
Each `socket.on(...)` handler becomes a pure function from the server
state and the event payload to the new state plus the list of outbound
emits it requests from socket.io.
-/

namespace SignalingServer

/-- Model of `Map.get`: first value stored under the key, if any. -/
def alistGet {α : Type} : List (String × α) → String → Option α
  | [], _ => none
  | (k', v) :: rest, k => if k' = k then some v else alistGet rest k

/-- Model of `Map.set`: replace in place when the key exists, else append. -/
def alistSet {α : Type} : List (String × α) → String → α → List (String × α)
  | [], k, v => [(k, v)]
  | (k', v') :: rest, k, v =>
      if k' = k then (k, v) :: rest else (k', v') :: alistSet rest k v

/-- Model of `Map.delete`: drop the entry stored under the key. -/
def alistDelete {α : Type} (l : List (String × α)) (k : String) : List (String × α) :=
  l.filter (fun kv => kv.1 != k)

/-- Model of `Map.has`. -/
def alistHas {α : Type} (l : List (String × α)) (k : String) : Bool :=
  (alistGet l k).isSome

/-- JS truthiness of an optional string field: `undefined` and `""` are falsy. -/
def truthy : Option String → Bool
  | none => false
  | some s => s != ""

/-- Leading-whitespace strip on a character list. -/
def dropWhitespace : List Char → List Char
  | [] => []
  | c :: cs => if c.isWhitespace then dropWhitespace cs else c :: cs

/-- JS `String.prototype.trim`: strip leading and trailing whitespace. -/
def jsTrim (s : String) : String :=
  ⟨((dropWhitespace s.data).reverse |> dropWhitespace).reverse⟩

/-- One member record inside a room: `{ socketId, ...userInfo, joinedAt }`. -/
structure Client where
  socketId : String
  userInfo : String
  joinedAt : Nat
deriving DecidableEq, Repr

/-- One entry of the `rooms` map: `{ id, clients, createdAt }`. -/
structure Room where
  id : String
  clients : List Client
  createdAt : Nat
deriving DecidableEq, Repr

/-- One entry of the `userSockets` map: `{ roomId, ...userInfo }`. -/
structure UserEntry where
  roomId : String
  userInfo : String
deriving DecidableEq, Repr

/-- The module-level mutable state: `const rooms = new Map()` and
`const userSockets = new Map()`. -/
structure ServerState where
  rooms : List (String × Room)
  userSockets : List (String × UserEntry)
deriving DecidableEq, Repr

/-- The empty state at server start. -/
def initState : ServerState := ⟨[], []⟩

/-- Source `addUserToRoom(roomId, socketId, userInfo)`: create the room if
absent (with `createdAt = now`), push a member record only when no client
with this `socketId` is present, and set the `userSockets` entry
unconditionally; returns the (updated) room. -/
def addUserToRoom (st : ServerState) (roomId socketId userInfo : String)
    (now : Nat) : ServerState × Room :=
  let room : Room :=
    match alistGet st.rooms roomId with
    | some r => r
    | none => ⟨roomId, [], now⟩
  let room' : Room :=
    if room.clients.any (fun c => c.socketId = socketId) then room
    else { room with clients := room.clients ++ [⟨socketId, userInfo, now⟩] }
  ({ rooms := alistSet st.rooms roomId room',
     userSockets := alistSet st.userSockets socketId ⟨roomId, userInfo⟩ },
   room')

/-- Source `removeUserFromRoom(roomId, socketId)`: `null` when the room is
unknown; otherwise filter the member out, and when the member set became
empty delete the room and return `null` — note the early `return null`
happens before the `userSockets.delete(socketId)` line, so the registry
entry is only deleted on the non-empty branch, exactly as in the source. -/
def removeUserFromRoom (st : ServerState) (roomId socketId : String) :
    ServerState × Option Room :=
  match alistGet st.rooms roomId with
  | none => (st, none)
  | some room =>
      let clients' := room.clients.filter (fun c => c.socketId != socketId)
      if clients'.length = 0 then
        ({ st with rooms := alistDelete st.rooms roomId }, none)
      else
        let room' := { room with clients := clients' }
        ({ rooms := alistSet st.rooms roomId room',
           userSockets := alistDelete st.userSockets socketId },
         some room')

/-- Source `getRoomClients(roomId)`: the member list, `[]` for an unknown room. -/
def getRoomClients (st : ServerState) (roomId : String) : List Client :=
  match alistGet st.rooms roomId with
  | some r => r.clients
  | none => []

/-- Per-event context supplied by the boundary adapter / runtime:
the handling socket's id, `Date.now()`, `new Date().toISOString()`, and
the random suffix used in generated chat-message ids. -/
structure Ctx where
  sockId : String
  now : Nat
  wall : String
  rand : String
deriving DecidableEq, Repr

/-- Payload shapes of outbound events, one constructor per shape used. -/
inductive OutPayload where
  | errorMsg (message : String)
  | roomUpdate (roomId : String) (clients : List Client) (action : String)
      (affected : String)
  | joinedAck (roomId : String) (socketId : String) (clients : List Client)
      (success : Bool)
  | leftAck (roomId : String) (socketId : String) (success : Bool)
  | sdpRelay (sdp : Option String) (sender : Option String)
      (roomId : Option String)
  | candidateRelay (candidate : Option String) (sender : Option String)
      (roomId : Option String)
  | chatOut (message : String) (sender : String) (roomId : String)
      (time : Nat) (timestamp : String) (id : String)
  | callNotice (actor : Option String) (actorSocketId : String)
      (roomId : Option String) (timestamp : Nat)
  | userDisc (disconnectedSocket : String) (remainingClients : List Client)
      (reason : String)
  | pongOut (timestamp : Nat)
  | sdpRelayBasic (sdp : Option String) (sender : Option String)
deriving DecidableEq, Repr

/-- One outbound delivery request issued by a handler:
`socket.emit` (to the sender only), `io.to(room).emit` (every socket in the
room, sender included), or `socket.to(x).emit` (every socket in room `x`
except the sender; `x` is a socket id for directed relays). -/
inductive Emit where
  | toSender (ev : String) (payload : OutPayload)
  | toRoomAll (room : String) (ev : String) (payload : OutPayload)
  | toRoomExcept (room : Option String) (ev : String) (payload : OutPayload)
deriving DecidableEq, Repr

/-- The `join` event's argument: a bare room id string or an object
`{ roomId, userInfo }`. -/
inductive JoinData where
  | str (s : String)
  | obj (roomId : Option String) (userInfo : String)
deriving DecidableEq, Repr

/-- Payload of `offer` / `answer`. -/
structure OfferAnswerPayload where
  roomId : Option String
  sdp : Option String
  sender : Option String
  target : Option String
deriving DecidableEq, Repr

/-- Payload of `ice-candidate`. -/
structure IcePayload where
  roomId : Option String
  candidate : Option String
  sender : Option String
  target : Option String
deriving DecidableEq, Repr

/-- Payload of `chat-message`. -/
structure ChatPayload where
  roomId : Option String
  message : Option String
  sender : Option String
deriving DecidableEq, Repr

/-- Payload of `call-user` / `call-accepted` / `call-rejected`. -/
structure CallPayload where
  roomId : Option String
  targetSocketId : Option String
  sender : Option String
deriving DecidableEq, Repr

/-- Payload of `end-call`. -/
structure EndCallPayload where
  roomId : Option String
  sender : Option String
deriving DecidableEq, Repr

/-- Handler of `socket.on('join')`. -/
def handleJoin (st : ServerState) (ctx : Ctx) (data : JoinData) :
    ServerState × List Emit :=
  let roomId? : Option String :=
    match data with
    | .str s => some s
    | .obj r _ => r
  let userInfo : String :=
    match data with
    | .str _ => ""
    | .obj _ u => u
  if !truthy roomId? then
    (st, [Emit.toSender "error" (.errorMsg "Room ID is required")])
  else
    let roomId := roomId?.getD ""
    let res := addUserToRoom st roomId ctx.sockId userInfo ctx.now
    (res.1,
     [Emit.toRoomAll roomId "room:update"
        (.roomUpdate roomId res.2.clients "user-joined" ctx.sockId),
      Emit.toSender "joined"
        (.joinedAck roomId ctx.sockId res.2.clients true)])

/-- Handler of `socket.on('leave')`. -/
def handleLeave (st : ServerState) (ctx : Ctx) (roomId? : Option String) :
    ServerState × List Emit :=
  if !truthy roomId? then
    (st, [Emit.toSender "error" (.errorMsg "Room ID is required")])
  else
    let roomId := roomId?.getD ""
    let res := removeUserFromRoom st roomId ctx.sockId
    let upd : List Emit :=
      match res.2 with
      | some room =>
          [Emit.toRoomAll roomId "room:update"
             (.roomUpdate roomId room.clients "user-left" ctx.sockId)]
      | none => []
    (res.1, upd ++ [Emit.toSender "left" (.leftAck roomId ctx.sockId true)])

/-- Handler of `socket.on('offer')` in the improved server: validate the
three required fields, then relay via `socket.to(target || roomId)`. -/
def handleOffer (st : ServerState) (p : OfferAnswerPayload) :
    ServerState × List Emit :=
  if !(truthy p.roomId && truthy p.sdp && truthy p.sender) then
    (st, [Emit.toSender "error" (.errorMsg "Missing required offer parameters")])
  else
    let dest := if truthy p.target then p.target else p.roomId
    (st, [Emit.toRoomExcept dest "offer" (.sdpRelay p.sdp p.sender p.roomId)])

/-- Handler of `socket.on('answer')` in the improved server. -/
def handleAnswer (st : ServerState) (p : OfferAnswerPayload) :
    ServerState × List Emit :=
  if !(truthy p.roomId && truthy p.sdp && truthy p.sender) then
    (st, [Emit.toSender "error" (.errorMsg "Missing required answer parameters")])
  else
    let dest := if truthy p.target then p.target else p.roomId
    (st, [Emit.toRoomExcept dest "answer" (.sdpRelay p.sdp p.sender p.roomId)])

/-- Handler of `socket.on('ice-candidate')` in the improved server. -/
def handleIceCandidate (st : ServerState) (p : IcePayload) :
    ServerState × List Emit :=
  if !(truthy p.roomId && truthy p.candidate && truthy p.sender) then
    (st, [Emit.toSender "error"
            (.errorMsg "Missing required ICE candidate parameters")])
  else
    let dest := if truthy p.target then p.target else p.roomId
    (st, [Emit.toRoomExcept dest "ice-candidate"
            (.candidateRelay p.candidate p.sender p.roomId)])

/-- Handler of `socket.on('chat-message')`: validate, then broadcast the
trimmed message with generated id and timestamps via `io.to(roomId)`. -/
def handleChatMessage (st : ServerState) (ctx : Ctx) (p : ChatPayload) :
    ServerState × List Emit :=
  if !(truthy p.roomId && truthy p.message && truthy p.sender) then
    (st, [Emit.toSender "error" (.errorMsg "Missing required message parameters")])
  else
    (st, [Emit.toRoomAll (p.roomId.getD "") "chat-message"
            (.chatOut (jsTrim (p.message.getD "")) (p.sender.getD "")
               (p.roomId.getD "") ctx.now ctx.wall
               ("msg_" ++ toString ctx.now ++ "_" ++ ctx.rand))])

/-- Handler of `socket.on('call-user')`: validate the fields, then check
that the target socket is a member of the stated room in the `rooms` map
before relaying `incoming-call`. -/
def handleCallUser (st : ServerState) (ctx : Ctx) (p : CallPayload) :
    ServerState × List Emit :=
  if !(truthy p.roomId && truthy p.targetSocketId && truthy p.sender) then
    (st, [Emit.toSender "error" (.errorMsg "Missing required call parameters")])
  else
    match alistGet st.rooms (p.roomId.getD "") with
    | none =>
        (st, [Emit.toSender "error" (.errorMsg "Target user not found in room")])
    | some room =>
        if room.clients.any (fun c => c.socketId = p.targetSocketId.getD "") then
          (st, [Emit.toRoomExcept p.targetSocketId "incoming-call"
                  (.callNotice p.sender ctx.sockId p.roomId ctx.now)])
        else
          (st, [Emit.toSender "error" (.errorMsg "Target user not found in room")])

/-- Handler of `socket.on('call-accepted')`: no validation, direct relay. -/
def handleCallAccepted (st : ServerState) (ctx : Ctx) (p : CallPayload) :
    ServerState × List Emit :=
  (st, [Emit.toRoomExcept p.targetSocketId "call-accepted"
          (.callNotice p.sender ctx.sockId p.roomId ctx.now)])

/-- Handler of `socket.on('call-rejected')`: no validation, direct relay. -/
def handleCallRejected (st : ServerState) (ctx : Ctx) (p : CallPayload) :
    ServerState × List Emit :=
  (st, [Emit.toRoomExcept p.targetSocketId "call-rejected"
          (.callNotice p.sender ctx.sockId p.roomId ctx.now)])

/-- Handler of `socket.on('end-call')`: broadcast `call-ended` to the room. -/
def handleEndCall (st : ServerState) (ctx : Ctx) (p : EndCallPayload) :
    ServerState × List Emit :=
  (st, [Emit.toRoomExcept p.roomId "call-ended"
          (.callNotice p.sender ctx.sockId p.roomId ctx.now)])

/-- Handler of `socket.on('ping')`. -/
def handlePing (st : ServerState) (ctx : Ctx) : ServerState × List Emit :=
  (st, [Emit.toSender "pong" (.pongOut ctx.now)])

/-- Handler of `socket.on('disconnect')`: look the socket up in
`userSockets`; when an entry with a truthy `roomId` exists, call
`removeUserFromRoom` and, when a room remains, broadcast the update and a
`user-disconnected` notice. The handler itself never deletes the
`userSockets` entry; it relies on `removeUserFromRoom` for that. -/
def handleDisconnect (st : ServerState) (ctx : Ctx) (reason : String) :
    ServerState × List Emit :=
  match alistGet st.userSockets ctx.sockId with
  | none => (st, [])
  | some entry =>
      if entry.roomId = "" then (st, [])
      else
        let res := removeUserFromRoom st entry.roomId ctx.sockId
        match res.2 with
        | some room =>
            (res.1,
             [Emit.toRoomAll entry.roomId "room:update"
                (.roomUpdate entry.roomId room.clients "user-disconnected"
                   ctx.sockId),
              Emit.toRoomAll entry.roomId "user-disconnected"
                (.userDisc ctx.sockId room.clients reason)])
        | none => (res.1, [])

/-- Inbound events dispatched by the improved server's connection handler. -/
inductive Event where
  | join (data : JoinData)
  | leave (roomId : Option String)
  | offer (p : OfferAnswerPayload)
  | answer (p : OfferAnswerPayload)
  | iceCandidate (p : IcePayload)
  | chatMessage (p : ChatPayload)
  | callUser (p : CallPayload)
  | callAccepted (p : CallPayload)
  | callRejected (p : CallPayload)
  | endCall (p : EndCallPayload)
  | ping
  | disconnect (reason : String)
deriving DecidableEq, Repr

/-- Dispatch of one inbound event, the single-threaded event loop step. -/
def applyEvent (st : ServerState) (ctx : Ctx) : Event → ServerState × List Emit
  | .join data => handleJoin st ctx data
  | .leave roomId? => handleLeave st ctx roomId?
  | .offer p => handleOffer st p
  | .answer p => handleAnswer st p
  | .iceCandidate p => handleIceCandidate st p
  | .chatMessage p => handleChatMessage st ctx p
  | .callUser p => handleCallUser st ctx p
  | .callAccepted p => handleCallAccepted st ctx p
  | .callRejected p => handleCallRejected st ctx p
  | .endCall p => handleEndCall st ctx p
  | .ping => handlePing st ctx
  | .disconnect reason => handleDisconnect st ctx reason

/-- Constant `staleTimeout = 30 * 60 * 1000` from the periodic cleanup. -/
def staleTimeout : Nat := 30 * 60 * 1000

/-- One pass of the `setInterval` stale-room cleanup: delete every room with
`now - createdAt > staleTimeout` and `clients.length === 0`. -/
def cleanupStaleRooms (now : Nat) (st : ServerState) : ServerState :=
  { st with
    rooms := st.rooms.filter (fun kv =>
      !(decide (now - kv.2.createdAt > staleTimeout)
          && decide (kv.2.clients.length = 0))) }

/-- States reachable from server start by any interleaving of socket events
and cleanup ticks. -/
inductive Reachable : ServerState → Prop where
  | init : Reachable initState
  | event (ctx : Ctx) (e : Event) {st : ServerState} :
      Reachable st → Reachable (applyEvent st ctx e).1
  | sweep (now : Nat) {st : ServerState} :
      Reachable st → Reachable (cleanupStaleRooms now st)

/-- Offer handler of the basic server `src/index.js`: no validation;
always `socket.to(roomId).emit('offer', { sdp, sender })`. -/
structure IdxOfferPayload where
  roomId : Option String
  sdp : Option String
  sender : Option String
deriving DecidableEq, Repr

/-- Source `socket.on('offer')` of `src/index.js`, which relays without any
required-field validation. -/
def idxHandleOffer (p : IdxOfferPayload) : List Emit :=
  [Emit.toRoomExcept p.roomId "offer" (.sdpRelayBasic p.sdp p.sender)]

/-! ### Association-list lemmas -/

lemma alistGet_set_self {α : Type} (l : List (String × α)) (k : String) (v : α) :
    alistGet (alistSet l k v) k = some v := by
  induction l with
  | nil => simp [alistSet, alistGet]
  | cons hd tl ih =>
      by_cases h : hd.1 = k
      · simp [alistSet, alistGet, h]
      · simpa [alistSet, alistGet, h] using ih

lemma alistSet_eq_self {α : Type} {l : List (String × α)} {k : String} {v : α}
    (h : alistGet l k = some v) : alistSet l k v = l := by
  induction l with
  | nil => simp [alistGet] at h
  | cons hd tl ih =>
      obtain ⟨k1, v1⟩ := hd
      by_cases hk : k1 = k
      · subst hk
        simp [alistGet] at h
        subst h
        simp [alistSet]
      · simp only [alistGet, if_neg hk] at h
        simp [alistSet, hk, ih h]

lemma mem_alistSet {α : Type} {l : List (String × α)} {k : String} {v : α}
    {kv : String × α} (h : kv ∈ alistSet l k v) : kv = (k, v) ∨ kv ∈ l := by
  induction l with
  | nil => simpa [alistSet] using h
  | cons hd tl ih =>
      by_cases hk : hd.1 = k
      · simp only [alistSet, if_pos hk, List.mem_cons] at h
        rcases h with h | h
        · exact Or.inl h
        · exact Or.inr (List.mem_cons_of_mem _ h)
      · simp only [alistSet, if_neg hk, List.mem_cons] at h
        rcases h with h | h
        · exact Or.inr (h ▸ List.mem_cons_self _ _)
        · rcases ih h with h' | h'
          · exact Or.inl h'
          · exact Or.inr (List.mem_cons_of_mem _ h')

lemma alistGet_mem {α : Type} {l : List (String × α)} {k : String} {v : α}
    (h : alistGet l k = some v) : (k, v) ∈ l := by
  induction l with
  | nil => simp [alistGet] at h
  | cons hd tl ih =>
      obtain ⟨k1, v1⟩ := hd
      by_cases hk : k1 = k
      · subst hk
        simp [alistGet] at h
        subst h
        exact List.mem_cons_self _ _
      · simp only [alistGet, if_neg hk] at h
        exact List.mem_cons_of_mem _ (ih h)

lemma mem_alistDelete {α : Type} {l : List (String × α)} {k : String}
    {kv : String × α} (h : kv ∈ alistDelete l k) : kv ∈ l :=
  List.mem_of_mem_filter h

lemma alistGet_delete_self {α : Type} (l : List (String × α)) (k : String) :
    alistGet (alistDelete l k) k = none := by
  induction l with
  | nil => simp [alistDelete, alistGet]
  | cons hd tl ih =>
      by_cases hk : hd.1 = k
      · simpa [alistDelete, alistGet, hk] using ih
      · simpa [alistDelete, List.filter_cons, alistGet, hk] using ih

/-! ### Reachable-state invariant of the Room Store -/

/-- Invariant maintained by every event handler: every room in the store has
a truthy (non-empty) key, a non-empty member list, and no duplicate
`socketId` among its member records. -/
def StoreInv (st : ServerState) : Prop :=
  ∀ kv ∈ st.rooms,
    kv.1 ≠ "" ∧ kv.2.clients ≠ [] ∧ (kv.2.clients.map Client.socketId).Nodup

lemma socketId_not_mem_of_any_eq_false {clients : List Client} {s : String}
    (h : clients.any (fun c => c.socketId = s) = false) :
    s ∉ clients.map Client.socketId := by
  intro hmem
  rw [List.mem_map] at hmem
  obtain ⟨c, hc, hcs⟩ := hmem
  have htrue : clients.any (fun c => c.socketId = s) = true := by
    rw [List.any_eq_true]
    exact ⟨c, hc, by simp [hcs]⟩
  rw [htrue] at h
  cases h

lemma storeInv_addUserToRoom {st : ServerState} (h : StoreInv st)
    {roomId : String} (hr : roomId ≠ "") (sockId info : String) (now : Nat) :
    StoreInv (addUserToRoom st roomId sockId info now).1 := by
  intro kv hkv
  simp only [addUserToRoom] at hkv
  rcases mem_alistSet hkv with hkv | hkv
  · subst hkv
    refine ⟨hr, ?_⟩
    set room : Room :=
      (match alistGet st.rooms roomId with
       | some r => r
       | none => ⟨roomId, [], now⟩) with hroom
    have hroominv : room.clients = [] ∨
        (room.clients ≠ [] ∧ (room.clients.map Client.socketId).Nodup) := by
      rw [hroom]
      cases hget : alistGet st.rooms roomId with
      | none => simp
      | some r =>
          have := h (roomId, r) (alistGet_mem hget)
          exact Or.inr ⟨this.2.1, this.2.2⟩
    by_cases hany : room.clients.any (fun c => c.socketId = sockId) = true
    · simp only [if_pos hany]
      rcases hroominv with he | ⟨hne, hnd⟩
      · rw [he] at hany; simp [List.any_nil] at hany
      · exact ⟨hne, hnd⟩
    · rw [Bool.not_eq_true] at hany
      simp only [hany, Bool.false_eq_true, if_false]
      constructor
      · simp
      · have hnotmem := socketId_not_mem_of_any_eq_false hany
        have hnd : (room.clients.map Client.socketId).Nodup := by
          rcases hroominv with he | ⟨_, hnd⟩
          · rw [he]; exact List.nodup_nil
          · exact hnd
        simp only [List.map_append, List.map_cons, List.map_nil]
        exact List.Nodup.append hnd (List.nodup_singleton _)
          (by simpa [List.disjoint_singleton] using hnotmem)
  · exact h kv hkv

lemma storeInv_removeUserFromRoom {st : ServerState} (h : StoreInv st)
    (roomId sockId : String) :
    StoreInv (removeUserFromRoom st roomId sockId).1 := by
  unfold removeUserFromRoom
  cases hget : alistGet st.rooms roomId with
  | none => exact h
  | some room =>
      simp only
      split
      · intro kv hkv
        exact h kv (mem_alistDelete hkv)
      · next hlen =>
          intro kv hkv
          simp only at hkv
          rcases mem_alistSet hkv with hkv | hkv
          · subst hkv
            have hroom := h (roomId, room) (alistGet_mem hget)
            refine ⟨hroom.1, ?_, ?_⟩
            · intro he
              apply hlen
              have he' : room.clients.filter (fun c => c.socketId != sockId)
                  = [] := he
              rw [he']
              rfl
            · exact hroom.2.2.sublist
                ((List.filter_sublist _).map Client.socketId)
          · exact h kv hkv

lemma storeInv_cleanupStaleRooms {st : ServerState} (h : StoreInv st)
    (now : Nat) : StoreInv (cleanupStaleRooms now st) := by
  intro kv hkv
  exact h kv (List.mem_of_mem_filter hkv)

lemma handleOffer_state (st : ServerState) (p : OfferAnswerPayload) :
    (handleOffer st p).1 = st := by
  unfold handleOffer; split <;> rfl

lemma handleAnswer_state (st : ServerState) (p : OfferAnswerPayload) :
    (handleAnswer st p).1 = st := by
  unfold handleAnswer; split <;> rfl

lemma handleIceCandidate_state (st : ServerState) (p : IcePayload) :
    (handleIceCandidate st p).1 = st := by
  unfold handleIceCandidate; split <;> rfl

lemma handleChatMessage_state (st : ServerState) (ctx : Ctx) (p : ChatPayload) :
    (handleChatMessage st ctx p).1 = st := by
  unfold handleChatMessage; split <;> rfl

lemma handleCallUser_state (st : ServerState) (ctx : Ctx) (p : CallPayload) :
    (handleCallUser st ctx p).1 = st := by
  unfold handleCallUser
  split
  · rfl
  · split
    · rfl
    · split <;> rfl

lemma not_bang_eq_true {b : Bool} (h : ¬ (!b) = true) : b = true := by
  cases b
  · simp at h
  · rfl

lemma truthy_getD_ne {o : Option String} (h : truthy o = true) :
    o.getD "" ≠ "" := by
  cases o with
  | none => simp [truthy] at h
  | some s =>
      simpa [truthy, Option.getD] using h

lemma truthy_some {s : String} (h : s ≠ "") : truthy (some s) = true := by
  simpa [truthy] using h

lemma storeInv_applyEvent {st : ServerState} (h : StoreInv st) (ctx : Ctx)
    (e : Event) : StoreInv (applyEvent st ctx e).1 := by
  cases e with
  | join data =>
      simp only [applyEvent, handleJoin]
      split
      · exact h
      · next hcond =>
          exact storeInv_addUserToRoom h
            (truthy_getD_ne (not_bang_eq_true hcond)) _ _ _
  | leave roomId? =>
      simp only [applyEvent, handleLeave]
      split
      · exact h
      · exact storeInv_removeUserFromRoom h _ _
  | offer p => rw [applyEvent, handleOffer_state]; exact h
  | answer p => rw [applyEvent, handleAnswer_state]; exact h
  | iceCandidate p => rw [applyEvent, handleIceCandidate_state]; exact h
  | chatMessage p => rw [applyEvent, handleChatMessage_state]; exact h
  | callUser p => rw [applyEvent, handleCallUser_state]; exact h
  | callAccepted p => exact h
  | callRejected p => exact h
  | endCall p => exact h
  | ping => exact h
  | disconnect reason =>
      simp only [applyEvent, handleDisconnect]
      cases alistGet st.userSockets ctx.sockId with
      | none => exact h
      | some entry =>
          simp only
          split
          · exact h
          · cases hrem : (removeUserFromRoom st entry.roomId ctx.sockId).2 with
            | none =>
                simp only [hrem]
                exact storeInv_removeUserFromRoom h _ _
            | some room =>
                simp only [hrem]
                exact storeInv_removeUserFromRoom h _ _

lemma reachable_storeInv {st : ServerState} (h : Reachable st) : StoreInv st := by
  induction h with
  | init => intro kv hkv; simp [initState] at hkv
  | event ctx e _ ih => exact storeInv_applyEvent ih ctx e
  | sweep now _ ih => exact storeInv_cleanupStaleRooms ih now

/-! ### Concrete execution traces used by the claim checks -/

/-- Context of a first event handled for socket `s1`. -/
def exCtx1 : Ctx := ⟨"s1", 1000, "t0", "aaa111bbb"⟩

/-- Context of a later event handled for socket `s1`. -/
def exCtx2 : Ctx := ⟨"s1", 2000, "t1", "ccc222ddd"⟩

/-- Context of an event handled for a second socket `s2`. -/
def exCtxS2 : Ctx := ⟨"s2", 3000, "t2", "eee333fff"⟩

/-- State after socket `s1` joins `room1` as its sole member. -/
def exSt1 : ServerState :=
  (applyEvent initState exCtx1 (.join (.str "room1"))).1

/-- State after `s1`, sole member of `room1`, then emits `leave room1`. -/
def exStLeave : ServerState :=
  (applyEvent exSt1 exCtx2 (.leave (some "room1"))).1

/-- State after `s1`, sole member of `room1`, instead disconnects. -/
def exStDisc : ServerState :=
  (applyEvent exSt1 exCtx2 (.disconnect "transport close")).1

/-! ### Claim checks -/

/-- C1: the claimed invariant — the Connection Registry and the Room Store
always agree on every reachable state — fails on the code: after `s1` joins
`room1` alone and then leaves it, `removeUserFromRoom` deletes the emptied
room and returns before its `userSockets.delete` line, so the reachable
state still maps `s1` to `room1` in the registry while `s1` is a member of
no room at all. -/
theorem C1_registry_store_disagreement :
    Reachable exStLeave
    ∧ alistGet exStLeave.userSockets "s1" = some ⟨"room1", ""⟩
    ∧ getRoomClients exStLeave "room1" = []
    ∧ exStLeave.rooms = [] := by
  refine ⟨?_, by decide, by decide, by decide⟩
  exact Reachable.event exCtx2 _ (Reachable.event exCtx1 _ Reachable.init)

/-- C2: the claim that the disconnect handler always ends with the
connection's registry entry removed fails on the code: when `s1`, sole
member of `room1`, disconnects, `removeUserFromRoom` hits the
empty-room branch and returns before `userSockets.delete(socket.id)`,
so the registry entry survives the whole disconnect handler. -/
theorem C2_disconnect_keeps_registry_entry :
    Reachable exStDisc
    ∧ alistGet exStDisc.userSockets "s1" = some ⟨"room1", ""⟩
    ∧ exStDisc.rooms = [] := by
  refine ⟨?_, by decide, by decide⟩
  exact Reachable.event exCtx2 _ (Reachable.event exCtx1 _ Reachable.init)

/-- C3 counterexample: a chat message whose text is the empty string IS
rejected — JS truthiness makes `!message` true for `""`, so the handler
emits only a validation error and broadcasts nothing, contrary to the
claim that empty-string messages are not rejected. -/
theorem C3_empty_message_rejected_cex :
    handleChatMessage exSt1 exCtx2 ⟨some "room1", some "", some "alice"⟩
      = (exSt1,
         [Emit.toSender "error"
            (.errorMsg "Missing required message parameters")]) := by
  decide

/-- C3 (amended): for a chat-message event with room and sender present and
a NON-empty message text — in particular one consisting only of
whitespace — no error is produced, trimming is applied, and the (possibly
blank) trimmed message is broadcast via `io.to(roomId)` to the whole room
including the sender, with a generated id, the monotonic time and the
wall-clock timestamp attached; the empty string, however, fails the
truthiness validation. -/
theorem C3_whitespace_message_broadcast (st : ServerState) (ctx : Ctx)
    (p : ChatPayload) (m : String)
    (hr : truthy p.roomId = true) (hm : p.message = some m) (hne : m ≠ "")
    (hs : truthy p.sender = true) :
    handleChatMessage st ctx p =
      (st, [Emit.toRoomAll (p.roomId.getD "") "chat-message"
              (.chatOut (jsTrim m) (p.sender.getD "") (p.roomId.getD "")
                 ctx.now ctx.wall
                 ("msg_" ++ toString ctx.now ++ "_" ++ ctx.rand))]) := by
  have hmt : truthy p.message = true := by
    rw [hm]; exact truthy_some hne
  unfold handleChatMessage
  rw [hr, hmt, hs]
  simp [hm]

/-- C3 witness: a whitespace-only message from `alice` is broadcast as the
blank string with id `msg_2000_ccc222ddd`. -/
theorem C3_whitespace_message_broadcast_witness :
    handleChatMessage exSt1 exCtx2 ⟨some "room1", some " \t ", some "alice"⟩
      = (exSt1,
         [Emit.toRoomAll "room1" "chat-message"
            (.chatOut "" "alice" "room1" 2000 "t1" "msg_2000_ccc222ddd")]) := by
  have h := C3_whitespace_message_broadcast exSt1 exCtx2
    ⟨some "room1", some " \t ", some "alice"⟩ " \t "
    (by decide) rfl (by decide) (by decide)
  rw [h]
  decide

/-- C4 counterexample: a `call-accepted` event with the required `sender`
field absent draws no validation error; the relay is still delivered to
the stated target, contrary to the claim. -/
theorem C4_missing_sender_still_relayed_cex :
    handleCallAccepted exSt1 exCtx2 ⟨some "room1", some "s2", none⟩
      = (exSt1,
         [Emit.toRoomExcept (some "s2") "call-accepted"
            (.callNotice none "s1" (some "room1") 2000)]) := rfl

/-- C4 (amended): the `call-accepted` and `call-rejected` handlers perform
no required-field validation at all: for every payload, even with `sender`
or `targetSocketId` absent, no error event is produced, the Room Store and
Connection Registry are untouched, and the relay is emitted toward the
stated target unconditionally. -/
theorem C4_call_signals_unvalidated (st : ServerState) (ctx : Ctx)
    (p : CallPayload) :
    handleCallAccepted st ctx p
        = (st, [Emit.toRoomExcept p.targetSocketId "call-accepted"
                  (.callNotice p.sender ctx.sockId p.roomId ctx.now)])
    ∧ handleCallRejected st ctx p
        = (st, [Emit.toRoomExcept p.targetSocketId "call-rejected"
                  (.callNotice p.sender ctx.sockId p.roomId ctx.now)]) :=
  ⟨rfl, rfl⟩

/-- C5 counterexample: the basic server `src/index.js` (cited by the claim
alongside the improved one) performs no validation in its `offer` handler:
an offer with `sender` omitted is still broadcast to the room and no
`error` event is sent. -/
theorem C5_basic_offer_unvalidated_cex :
    idxHandleOffer ⟨some "room1", some "sdp-offer", none⟩
      = [Emit.toRoomExcept (some "room1") "offer"
           (.sdpRelayBasic (some "sdp-offer") none)] := rfl

/-- C5 (amended): in the improved server (src/unnamed/part_000), every
`offer`, `answer` or `ice-candidate` event missing any required field
(room id, sdp/candidate payload, or sender) yields exactly one `error`
event to the sender — nothing is broadcast or delivered to anyone else and
the state is unchanged; the basic server `src/index.js` performs no such
validation and relays regardless. -/
theorem C5_improved_signaling_validation (st : ServerState)
    (po pa : OfferAnswerPayload) (pc : IcePayload)
    (hpo : (truthy po.roomId && truthy po.sdp && truthy po.sender) = false)
    (hpa : (truthy pa.roomId && truthy pa.sdp && truthy pa.sender) = false)
    (hpc : (truthy pc.roomId && truthy pc.candidate && truthy pc.sender)
            = false) :
    handleOffer st po
        = (st, [Emit.toSender "error"
                  (.errorMsg "Missing required offer parameters")])
    ∧ handleAnswer st pa
        = (st, [Emit.toSender "error"
                  (.errorMsg "Missing required answer parameters")])
    ∧ handleIceCandidate st pc
        = (st, [Emit.toSender "error"
                  (.errorMsg "Missing required ICE candidate parameters")]) := by
  refine ⟨?_, ?_, ?_⟩
  · unfold handleOffer; rw [hpo]; rfl
  · unfold handleAnswer; rw [hpa]; rfl
  · unfold handleIceCandidate; rw [hpc]; rfl

/-- C5 witness: an offer, an answer and an ICE candidate each missing their
`sender` field all produce only the matching validation error. -/
theorem C5_improved_signaling_validation_witness :
    handleOffer initState ⟨some "room1", some "sdp-offer", none, none⟩
        = (initState, [Emit.toSender "error"
                         (.errorMsg "Missing required offer parameters")])
    ∧ handleAnswer initState ⟨some "room1", some "sdp-answer", none, none⟩
        = (initState, [Emit.toSender "error"
                         (.errorMsg "Missing required answer parameters")])
    ∧ handleIceCandidate initState ⟨some "room1", some "cand", none, none⟩
        = (initState,
           [Emit.toSender "error"
              (.errorMsg "Missing required ICE candidate parameters")]) :=
  C5_improved_signaling_validation initState
    ⟨some "room1", some "sdp-offer", none, none⟩
    ⟨some "room1", some "sdp-answer", none, none⟩
    ⟨some "room1", some "cand", none, none⟩
    (by decide) (by decide) (by decide)

lemma addUserToRoom_snd_any (st : ServerState) (roomId sockId info : String)
    (n : Nat) :
    ((addUserToRoom st roomId sockId info n).2).clients.any
      (fun c => c.socketId = sockId) = true := by
  unfold addUserToRoom
  set room : Room :=
    (match alistGet st.rooms roomId with
     | some r => r
     | none => ⟨roomId, [], n⟩) with hroom
  by_cases hany : room.clients.any (fun c => c.socketId = sockId) = true
  · simp [hany]
  · rw [Bool.not_eq_true] at hany
    simp [hany, List.any_append]

lemma addUserToRoom_already_member {st : ServerState} {roomId sockId : String}
    {room : Room} (hget : alistGet st.rooms roomId = some room)
    (hany : room.clients.any (fun c => c.socketId = sockId) = true)
    (info : String) (n : Nat) :
    (addUserToRoom st roomId sockId info n).1.rooms = st.rooms := by
  unfold addUserToRoom
  simp [hget, hany, alistSet_eq_self hget]

lemma addUserToRoom_rooms_idem (st : ServerState)
    (roomId sockId info info2 : String) (n n2 : Nat) :
    (addUserToRoom (addUserToRoom st roomId sockId info n).1
        roomId sockId info2 n2).1.rooms
      = (addUserToRoom st roomId sockId info n).1.rooms := by
  have hget : alistGet (addUserToRoom st roomId sockId info n).1.rooms roomId
      = some (addUserToRoom st roomId sockId info n).2 :=
    alistGet_set_self st.rooms roomId _
  exact addUserToRoom_already_member hget
    (addUserToRoom_snd_any st roomId sockId info n) info2 n2

/-- C6: the Room Store join is idempotent on membership — joining the same
connection to the same room a second time leaves the room's member list
exactly as after the first join — and on every reachable state the member
records of every room carry pairwise-distinct connection identifiers. -/
theorem C6_join_idempotent_no_duplicates (st : ServerState)
    (h : Reachable st) (roomId sockId info info2 : String) (n n2 : Nat) :
    getRoomClients (addUserToRoom (addUserToRoom st roomId sockId info n).1
        roomId sockId info2 n2).1 roomId
      = getRoomClients (addUserToRoom st roomId sockId info n).1 roomId
    ∧ ∀ kv ∈ st.rooms, (kv.2.clients.map Client.socketId).Nodup := by
  constructor
  · unfold getRoomClients
    rw [addUserToRoom_rooms_idem]
  · intro kv hkv
    exact (reachable_storeInv h kv hkv).2.2

/-- C6 witness: after `s1` joined `room1`, two further joins of `s1` leave
the member list at the single record from the first join, and the reachable
state's member lists are duplicate-free. -/
theorem C6_join_idempotent_no_duplicates_witness :
    getRoomClients (addUserToRoom (addUserToRoom exSt1 "room1" "s1" "" 5).1
        "room1" "s1" "" 6).1 "room1"
      = getRoomClients (addUserToRoom exSt1 "room1" "s1" "" 5).1 "room1"
    ∧ (["s1"] : List String).Nodup := by
  have h := C6_join_idempotent_no_duplicates exSt1
    (Reachable.event exCtx1 _ Reachable.init) "room1" "s1" "" "" 5 6
  refine ⟨h.1, ?_⟩
  have h2 := h.2 ("room1", ⟨"room1", [⟨"s1", "", 1000⟩], 1000⟩) (by decide)
  simp at h2
  simp [h2]

/-- C7: a `call-user` event with all required fields present whose
`targetSocketId` is not a member of the stated room in the Room Store —
including when the room is unknown — produces exactly one `error` to the
caller; no `incoming-call` is emitted to anyone and the state is
unchanged. -/
theorem C7_call_user_target_not_in_room (st : ServerState) (ctx : Ctx)
    (p : CallPayload)
    (hr : truthy p.roomId = true) (ht : truthy p.targetSocketId = true)
    (hs : truthy p.sender = true)
    (hmem : ∀ room, alistGet st.rooms (p.roomId.getD "") = some room →
        room.clients.any (fun c => c.socketId = p.targetSocketId.getD "")
          = false) :
    handleCallUser st ctx p
      = (st, [Emit.toSender "error"
                (.errorMsg "Target user not found in room")]) := by
  unfold handleCallUser
  rw [hr, ht, hs]
  simp only [Bool.and_self, Bool.not_true, Bool.false_eq_true, if_false]
  cases hget : alistGet st.rooms (p.roomId.getD "") with
  | none => rfl
  | some room => simp [hmem room hget]

/-- C7 witness: calling `s9` in the unknown room `room9` yields only the
lookup error. -/
theorem C7_call_user_target_not_in_room_witness :
    handleCallUser initState exCtx1 ⟨some "room9", some "s9", some "alice"⟩
      = (initState, [Emit.toSender "error"
                       (.errorMsg "Target user not found in room")]) :=
  C7_call_user_target_not_in_room initState exCtx1
    ⟨some "room9", some "s9", some "alice"⟩
    (by decide) (by decide) (by decide)
    (fun room hroom => by simp [initState, alistGet] at hroom)

/-- C8: one pass of the stale-room cleanup keeps a room of the Room Store
if and only if it is not both empty and older than the stale threshold —
so it deletes exactly the stale empty rooms, and a non-empty room is never
deleted whatever its age. -/
theorem C8_sweeper_deletes_exactly_stale_empty (now : Nat)
    (st : ServerState) (roomId : String) (room : Room) :
    (roomId, room) ∈ (cleanupStaleRooms now st).rooms ↔
      ((roomId, room) ∈ st.rooms
        ∧ ¬(now - room.createdAt > staleTimeout ∧ room.clients = [])) := by
  simp [cleanupStaleRooms, List.mem_filter, List.length_eq_zero, staleTimeout]
  intro _
  constructor
  · rintro (h | h) hlt
    · omega
    · exact h
  · intro h
    by_cases hlt : 1800000 < now - room.createdAt
    · exact Or.inr (h hlt)
    · exact Or.inl (by omega)

/-- C9: a `leave` event naming a room that exists (in a reachable state)
but whose member set does not contain the sender leaves the whole Room
Store unchanged, yet still broadcasts a `room:update` with action
`user-left` to the room and acknowledges the sender with a successful
`left`; and the sender's Connection Registry entry is deleted
unconditionally — whatever room that entry names. -/
theorem C9_leave_nonmember_behavior (st : ServerState) (h : Reachable st)
    (ctx : Ctx) (roomId : String) (room : Room)
    (hget : alistGet st.rooms roomId = some room)
    (hnm : room.clients.any (fun c => c.socketId = ctx.sockId) = false) :
    applyEvent st ctx (.leave (some roomId))
      = ({ st with userSockets := alistDelete st.userSockets ctx.sockId },
         [Emit.toRoomAll roomId "room:update"
            (.roomUpdate roomId room.clients "user-left" ctx.sockId),
          Emit.toSender "left" (.leftAck roomId ctx.sockId true)])
    ∧ alistGet (applyEvent st ctx (.leave (some roomId))).1.userSockets
        ctx.sockId = none := by
  obtain ⟨hkey, hne, -⟩ := reachable_storeInv h (roomId, room) (alistGet_mem hget)
  have htruthy : truthy (some roomId) = true := truthy_some hkey
  have hfilter : room.clients.filter (fun c => c.socketId != ctx.sockId)
      = room.clients := by
    apply List.filter_eq_self.mpr
    intro c hc
    have hall := List.any_eq_false.mp hnm c hc
    simpa using hall
  have hlen : ¬(room.clients.filter
      (fun c => c.socketId != ctx.sockId)).length = 0 := by
    rw [hfilter]
    simpa [List.length_eq_zero] using hne
  have hmain : applyEvent st ctx (.leave (some roomId))
      = ({ st with userSockets := alistDelete st.userSockets ctx.sockId },
         [Emit.toRoomAll roomId "room:update"
            (.roomUpdate roomId room.clients "user-left" ctx.sockId),
          Emit.toSender "left" (.leftAck roomId ctx.sockId true)]) := by
    simp only [applyEvent, handleLeave, htruthy, Bool.not_true,
      Bool.false_eq_true, if_false, Option.getD_some]
    unfold removeUserFromRoom
    simp only [hget, hfilter, if_neg hlen]
    have hset : alistSet st.rooms roomId
        { room with clients := room.clients } = st.rooms :=
      alistSet_eq_self hget
    have hne2 : room.clients ≠ [] := hne
    simp [hset, hne2]
  refine ⟨hmain, ?_⟩
  rw [hmain]
  exact alistGet_delete_self st.userSockets ctx.sockId

/-- C9 witness: socket `s2`, not a member of `room1`, sends `leave room1`:
the store is untouched, `s2` still triggers the `user-left` broadcast and
receives the success acknowledgment. -/
theorem C9_leave_nonmember_behavior_witness :
    applyEvent exSt1 exCtxS2 (.leave (some "room1"))
      = ({ exSt1 with userSockets := alistDelete exSt1.userSockets "s2" },
         [Emit.toRoomAll "room1" "room:update"
            (.roomUpdate "room1" [⟨"s1", "", 1000⟩] "user-left" "s2"),
          Emit.toSender "left" (.leftAck "room1" "s2" true)])
    ∧ alistGet (applyEvent exSt1 exCtxS2 (.leave (some "room1"))).1.userSockets
        "s2" = none :=
  C9_leave_nonmember_behavior exSt1 (Reachable.event exCtx1 _ Reachable.init)
    exCtxS2 "room1" ⟨"room1", [⟨"s1", "", 1000⟩], 1000⟩
    (by decide) (by decide)

/-- C10: for `offer`, `answer`, `ice-candidate` and `chat-message` events
with all required fields present, the handler relays or broadcasts
unconditionally in ANY server state — the sender's presence in the
Connection Registry or membership in the stated room is never consulted,
and the state is left unchanged. -/
theorem C10_relay_without_membership_check (st : ServerState) (ctx : Ctx)
    (po pa : OfferAnswerPayload) (pice : IcePayload) (pchat : ChatPayload)
    (hpo : (truthy po.roomId && truthy po.sdp && truthy po.sender) = true)
    (hpa : (truthy pa.roomId && truthy pa.sdp && truthy pa.sender) = true)
    (hpice : (truthy pice.roomId && truthy pice.candidate
               && truthy pice.sender) = true)
    (hpchat : (truthy pchat.roomId && truthy pchat.message
                && truthy pchat.sender) = true) :
    handleOffer st po
        = (st, [Emit.toRoomExcept
                  (if truthy po.target then po.target else po.roomId)
                  "offer" (.sdpRelay po.sdp po.sender po.roomId)])
    ∧ handleAnswer st pa
        = (st, [Emit.toRoomExcept
                  (if truthy pa.target then pa.target else pa.roomId)
                  "answer" (.sdpRelay pa.sdp pa.sender pa.roomId)])
    ∧ handleIceCandidate st pice
        = (st, [Emit.toRoomExcept
                  (if truthy pice.target then pice.target else pice.roomId)
                  "ice-candidate"
                  (.candidateRelay pice.candidate pice.sender pice.roomId)])
    ∧ handleChatMessage st ctx pchat
        = (st, [Emit.toRoomAll (pchat.roomId.getD "") "chat-message"
                  (.chatOut (jsTrim (pchat.message.getD ""))
                     (pchat.sender.getD "") (pchat.roomId.getD "")
                     ctx.now ctx.wall
                     ("msg_" ++ toString ctx.now ++ "_" ++ ctx.rand))]) := by
  refine ⟨?_, ?_, ?_, ?_⟩
  · unfold handleOffer; rw [hpo]; rfl
  · unfold handleAnswer; rw [hpa]; rfl
  · unfold handleIceCandidate; rw [hpice]; rfl
  · unfold handleChatMessage; rw [hpchat]; rfl

/-- C10 witness: in the start state, where `s1` is registered nowhere and a
member of no room, a complete offer, answer, ICE candidate and chat
message are all still relayed. -/
theorem C10_relay_without_membership_check_witness :
    handleOffer initState ⟨some "room1", some "sdp-o", some "s1", none⟩
        = (initState, [Emit.toRoomExcept (some "room1") "offer"
                         (.sdpRelay (some "sdp-o") (some "s1") (some "room1"))])
    ∧ handleAnswer initState ⟨some "room1", some "sdp-a", some "s1", some "s2"⟩
        = (initState, [Emit.toRoomExcept (some "s2") "answer"
                         (.sdpRelay (some "sdp-a") (some "s1") (some "room1"))])
    ∧ handleIceCandidate initState ⟨some "room1", some "cand", some "s1", none⟩
        = (initState,
           [Emit.toRoomExcept (some "room1") "ice-candidate"
              (.candidateRelay (some "cand") (some "s1") (some "room1"))])
    ∧ handleChatMessage initState exCtx1 ⟨some "room1", some "hi", some "s1"⟩
        = (initState,
           [Emit.toRoomAll "room1" "chat-message"
              (.chatOut "hi" "s1" "room1" 1000 "t0" "msg_1000_aaa111bbb")]) := by
  have h := C10_relay_without_membership_check initState exCtx1
    ⟨some "room1", some "sdp-o", some "s1", none⟩
    ⟨some "room1", some "sdp-a", some "s1", some "s2"⟩
    ⟨some "room1", some "cand", some "s1", none⟩
    ⟨some "room1", some "hi", some "s1"⟩
    (by decide) (by decide) (by decide) (by decide)
  refine ⟨?_, ?_, ?_, ?_⟩
  · rw [h.1]; decide
  · rw [h.2.1]; decide
  · rw [h.2.2.1]; decide
  · rw [h.2.2.2]; decide

end SignalingServer
